import Mathlib

/-!
Verification development for the go-gdachain light-client retrieval core.

Shallow embedding of the repository's Go sources:
* the metered p2p message stream wrappers (`gda` package, `les` package),
* the `lesTopic` discovery-topic derivation,
* the consensus RLP encoding of transaction receipts,
* the full-node constructor guard in `gda.New`,
* a model of the Retrieve Manager / ODR deduplication state machine,
  built from the design document where the Go source is not available.

Machine integers are modelled as `Nat` (all the quantities involved are
non-negative counters, sizes or codes and no overflow is relevant to the
properties below); fallible Go functions return `Option`/`Except`.
-/

namespace GdaProto

/-- Modelled from the spec: the wire message codes of the full-node protocol
(`eth/protocol.go` is not among the provided sources). The spec only requires
a closed set of distinct codes for the message kinds it names (headers,
bodies, states, receipts, hashes, blocks, transactions); the concrete values
are the standard ones. -/
def BlockHeadersMsg : Nat := 0x04

/-- Modelled from the spec: wire code for block-bodies messages. -/
def BlockBodiesMsg : Nat := 0x06

/-- Modelled from the spec: wire code for state (node-data) messages. -/
def NodeDataMsg : Nat := 0x0e

/-- Modelled from the spec: wire code for receipts messages. -/
def ReceiptsMsg : Nat := 0x10

/-- Modelled from the spec: wire code for new-block-hash announcements. -/
def NewBlockHashesMsg : Nat := 0x01

/-- Modelled from the spec: wire code for new-block propagation. -/
def NewBlockMsg : Nat := 0x07

/-- Modelled from the spec: wire code for transaction propagation. -/
def TxMsg : Nat := 0x02

/-- Modelled from the spec: protocol version number gda62. -/
def gda62 : Nat := 62

/-- Modelled from the spec: protocol version number gda63; state and receipt
messages exist from this version on. -/
def gda63 : Nat := 63

/-- A p2p message as seen by the metered wrapper: its code and its size. -/
structure Msg where
  Code : Nat
  Size : Nat
deriving DecidableEq

/-- One metrics meter: how many times `Mark` was called and the sum of the
marked amounts. -/
structure Meter where
  marks : Nat
  total : Nat
deriving DecidableEq

/-- Meter.Mark: record one event of the given amount. -/
def Meter.mark (m : Meter) (n : Nat) : Meter :=
  ⟨m.marks + 1, m.total + n⟩

/-- The message kinds the gda metered stream distinguishes. -/
inductive MKind
  | header
  | body
  | stateK
  | receipt
  | hash
  | block
  | txn
  | misc
deriving DecidableEq

/-- Traffic direction: inbound (ReadMsg) or outbound (WriteMsg). -/
inductive Dir
  | inb
  | outb
deriving DecidableEq

/-- The bank of meters of the gda package: a packets meter and a traffic
meter for every message kind and direction. -/
structure Meters where
  packets : MKind → Dir → Meter
  traffic : MKind → Dir → Meter

/-- All meters start at zero. -/
def Meters.init : Meters :=
  ⟨fun _ _ => ⟨0, 0⟩, fun _ _ => ⟨0, 0⟩⟩

/-- Mark the packets meter of pair `(k, d)` with 1 and the traffic meter of
the same pair with `size`, leaving every other meter unchanged. -/
def Meters.markPair (ms : Meters) (k : MKind) (d : Dir) (size : Nat) : Meters :=
  ⟨fun k' d' => if k' = k ∧ d' = d then (ms.packets k' d').mark 1 else ms.packets k' d',
   fun k' d' => if k' = k ∧ d' = d then (ms.traffic k' d').mark size else ms.traffic k' d'⟩

/-- The meter-pair selection switch of `meteredMsgReadWriter.ReadMsg` and
`WriteMsg` (gda package): cases in source order; state and receipt codes are
recognised only from protocol version gda63 on; everything else is misc. -/
def selectKind (version : Nat) (code : Nat) : MKind :=
  if code = BlockHeadersMsg then .header
  else if code = BlockBodiesMsg then .body
  else if gda63 ≤ version ∧ code = NodeDataMsg then .stateK
  else if gda63 ≤ version ∧ code = ReceiptsMsg then .receipt
  else if code = NewBlockHashesMsg then .hash
  else if code = NewBlockMsg then .block
  else if code = TxMsg then .txn
  else .misc

/-- `meteredMsgReadWriter.ReadMsg` (gda package): `res` is the result of the
underlying stream's ReadMsg. On error the result is returned unchanged with
no accounting; on success the selected inbound meter pair is marked and the
message is returned unchanged. -/
def readMsg (version : Nat) (res : Msg × Option String) (ms : Meters) :
    (Msg × Option String) × Meters :=
  match res with
  | (msg, some e) => ((msg, some e), ms)
  | (msg, none) => ((msg, none), ms.markPair (selectKind version msg.Code) .inb msg.Size)

/-- `meteredMsgReadWriter.WriteMsg` (gda package): the selected outbound meter
pair is marked, then the message is handed to the underlying stream whose
error `werr` is returned verbatim. -/
def writeMsg (version : Nat) (msg : Msg) (werr : Option String) (ms : Meters) :
    Option String × Meters :=
  (werr, ms.markPair (selectKind version msg.Code) .outb msg.Size)

end GdaProto

namespace LesProto

/-- The bank of meters of the les package metered stream: only the four misc
meters exist (the per-kind les meters are commented out in the source). -/
structure Meters where
  miscInPackets : GdaProto.Meter
  miscInTraffic : GdaProto.Meter
  miscOutPackets : GdaProto.Meter
  miscOutTraffic : GdaProto.Meter
deriving DecidableEq

/-- All les meters start at zero. -/
def Meters.init : Meters :=
  ⟨⟨0, 0⟩, ⟨0, 0⟩, ⟨0, 0⟩, ⟨0, 0⟩⟩

/-- `meteredMsgReadWriter.ReadMsg` (les package): on success the misc inbound
meters are marked regardless of the message code; the underlying result is
returned unchanged. -/
def readMsg (res : GdaProto.Msg × Option String) (ms : Meters) :
    (GdaProto.Msg × Option String) × Meters :=
  match res with
  | (msg, some e) => ((msg, some e), ms)
  | (msg, none) =>
      ((msg, none),
        ⟨ms.miscInPackets.mark 1, ms.miscInTraffic.mark msg.Size,
         ms.miscOutPackets, ms.miscOutTraffic⟩)

/-- `meteredMsgReadWriter.WriteMsg` (les package): the misc outbound meters
are marked regardless of the message code, then the underlying stream's
error `werr` is returned verbatim. -/
def writeMsg (msg : GdaProto.Msg) (werr : Option String) (ms : Meters) :
    Option String × Meters :=
  (werr,
    ⟨ms.miscInPackets, ms.miscInTraffic,
     ms.miscOutPackets.mark 1, ms.miscOutTraffic.mark msg.Size⟩)

end LesProto

namespace LesDiscovery

/-- Modelled from the spec: the les protocol version constant lpv1
(`les/protocol.go` is not among the provided sources; the spec names two
coexisting protocol versions). -/
def lpv1 : Nat := 1

/-- Modelled from the spec: the les protocol version constant lpv2. -/
def lpv2 : Nat := 2

/-- Hex digit character: 0-9 then lowercase a-f. -/
def nibToChar (n : Nat) : Char :=
  if n < 10 then Char.ofNat (48 + n) else Char.ofNat (87 + n)

/-- Hex encoding of one byte: high nibble then low nibble. -/
def byteToHex (b : Nat) : List Char :=
  [nibToChar (b / 16), nibToChar (b % 16)]

/-- Hex encoding of a byte sequence as a character list. -/
def bytesToHexChars : List Nat → List Char
  | [] => []
  | b :: bs => byteToHex b ++ bytesToHexChars bs

/-- Modelled from the spec: `common.Bytes2Hex`, the lowercase hex encoding of
a byte slice (the `common` package is not among the provided sources; the
spec asks for the hex encoding of a prefix of the genesis hash). -/
def Bytes2Hex (bs : List Nat) : String :=
  ⟨bytesToHexChars bs⟩

/-- `lesTopic` (les package): the discovery topic for a genesis hash and a
protocol version. The source panics on any version other than lpv1/lpv2; the
panic is modelled as `Option.none`. A hash's `Bytes()[0:8]` is the first 8
bytes. -/
def lesTopic (genesisHash : List Nat) (protocolVersion : Nat) : Option String :=
  (if protocolVersion = lpv1 then some "LES"
   else if protocolVersion = lpv2 then some "LES2"
   else none).map
    (fun name => name ++ "@" ++ Bytes2Hex (genesisHash.take 8))

end LesDiscovery

namespace Types

/-- A log entry; carried verbatim by the receipt encoding, its contents are
opaque to the receipt logic, so it is represented by an atom. -/
abbrev Log := Nat

/-- A bloom filter value, carried verbatim by the receipt encoding. -/
abbrev Bloom := List Nat

/-- A 32-byte hash, as a byte list. -/
abbrev Hash := List Nat

/-- ReceipgdaatusFailed is the status code of a failed transaction. -/
def ReceipgdaatusFailed : Nat := 0

/-- ReceipgdaatusSuccessful is the status code of a successful transaction. -/
def ReceipgdaatusSuccessful : Nat := 1

/-- The RLP byte encoding of the failed status: empty. -/
def receipgdaatusFailedRLP : List Nat := []

/-- The RLP byte encoding of the successful status: the single byte 0x01. -/
def receipgdaatusSuccessfulRLP : List Nat := [0x01]

/-- Receipt represents the results of a transaction (`core/types`). -/
structure Receipt where
  Posgdaate : List Nat
  Status : Nat
  CumulativeGasUsed : Nat
  Bloom : Bloom
  Logs : List Log
  TxHash : Hash
  ContractAddress : List Nat
  GasUsed : Nat
deriving DecidableEq

/-- The zero-valued receipt, the receiver a decode starts from. -/
def Receipt.empty : Receipt :=
  ⟨[], 0, 0, [], [], [], [], 0⟩

/-- receiptRLP is the consensus encoding of a receipt. -/
structure receiptRLP where
  PosgdaateOrStatus : List Nat
  CumulativeGasUsed : Nat
  Bloom : Bloom
  Logs : List Log
deriving DecidableEq

/-- `Receipt.statusEncoding`: with no post state the status is encoded as the
failed or successful RLP bytes, otherwise the post state itself is used. -/
def Receipt.statusEncoding (r : Receipt) : List Nat :=
  if r.Posgdaate.length = 0 then
    if r.Status = ReceipgdaatusFailed then receipgdaatusFailedRLP
    else receipgdaatusSuccessfulRLP
  else r.Posgdaate

/-- `Receipt.EncodeRLP`: flattens the consensus fields of a receipt into the
consensus encoding structure. The generic RLP byte serialisation of that
structure lives in the external `rlp` package (out of scope per the spec)
and is modelled as the identity on `receiptRLP`. -/
def Receipt.EncodeRLP (r : Receipt) : receiptRLP :=
  ⟨r.statusEncoding, r.CumulativeGasUsed, r.Bloom, r.Logs⟩

/-- `Receipt.segdaatus`: decode the combined status / post-state bytes,
in source order: successful bytes, failed bytes, a 32-byte post state,
otherwise an error. -/
def Receipt.segdaatus (r : Receipt) (posgdaateOrStatus : List Nat) : Except String Receipt :=
  if posgdaateOrStatus = receipgdaatusSuccessfulRLP then
    Except.ok { r with Status := ReceipgdaatusSuccessful }
  else if posgdaateOrStatus = receipgdaatusFailedRLP then
    Except.ok { r with Status := ReceipgdaatusFailed }
  else if posgdaateOrStatus.length = 32 then
    Except.ok { r with Posgdaate := posgdaateOrStatus }
  else Except.error "invalid receipt status"

/-- `Receipt.DecodeRLP`: loads the consensus fields of a receipt from the
decoded consensus encoding structure (the byte-level `rlp.Stream` decode of
that structure is external and modelled as the identity). -/
def Receipt.DecodeRLP (r : Receipt) (dec : receiptRLP) : Except String Receipt :=
  (r.segdaatus dec.PosgdaateOrStatus).map
    (fun r' =>
      { r' with
          CumulativeGasUsed := dec.CumulativeGasUsed
          Bloom := dec.Bloom
          Logs := dec.Logs })

end Types

namespace GdaBackend

/-- Modelled from the spec: `downloader.SyncMode` constants (the
`gda/downloader` package is not among the provided sources). -/
def FullSync : Nat := 0

/-- Modelled from the spec: the fast sync mode constant. -/
def FastSync : Nat := 1

/-- Modelled from the spec: the light sync mode constant. -/
def LightSync : Nat := 2

/-- Modelled from the spec: `SyncMode.IsValid`, true for the closed range of
defined sync modes. -/
def IsValid (mode : Nat) : Bool :=
  FullSync ≤ mode && mode ≤ LightSync

/-- The configuration fields `gda.New` reads before any side effect. -/
structure Config where
  SyncMode : Nat
deriving DecidableEq

/-- The externally visible side effects of `gda.New` relevant here: opening
the chain database and creating chain state. -/
inductive NewEffect
  | createDB
  | newBlockChain
deriving DecidableEq

/-- The result of `gda.New`: the service (or nil), the error (or nil), and
the trace of side effects performed. -/
structure NewResult where
  service : Option Unit
  err : Option String
  effects : List NewEffect
deriving DecidableEq

/-- `gda.New` (package gda, tst/backend.go): the sync-mode guards run before
anything else; `rest` stands for the remainder of the constructor, which
begins by opening the chain database. Only the guard prefix is embedded; the
remainder is an arbitrary continuation result. -/
def New (config : Config) (rest : NewResult) : NewResult :=
  if config.SyncMode = LightSync then
    ⟨none, some "cannot run gda.gdachain in light sync mode, use les.Lightgdachain", []⟩
  else if ¬ IsValid config.SyncMode then
    ⟨none, some "invalid sync mode", []⟩
  else
    ⟨rest.service, rest.err, NewEffect.createDB :: rest.effects⟩

end GdaBackend

namespace Retrieve

/-- Peer identities. -/
abbrev PeerId := Nat

/-- Caller identities, for the deduplicated waiter set. -/
abbrev Caller := Nat

/-- Modelled from the spec: a Request is a type tag, an opaque payload and a
validation root, immutable once created (the `retrieveManager` and
`requestDistributor` sources are not among the provided files; the model
follows design sections 3, 4.3, 4.4, 7 and 8). -/
structure Request where
  rtype : Nat
  payload : List Nat
  root : Nat
deriving DecidableEq

/-- Modelled from the spec: the error taxonomy of section 7. -/
inductive RError
  | noEligiblePeer
  | attemptTimeout
  | invalidProof
  | cancelled
  | retriesExhausted
deriving DecidableEq

/-- Modelled from the spec: the retrieval states of section 4.4. -/
inductive RState
  | pending
  | sent (p : PeerId)
  | waitingReply (p : PeerId)
  | validating (p : PeerId) (reply : List Nat)
  | done (value : List Nat)
  | failedTerminal (e : RError)
deriving DecidableEq

/-- A state is terminal when it is `done` or `failedTerminal`. -/
def RState.isTerminal : RState → Bool
  | .done _ => true
  | .failedTerminal _ => true
  | _ => false

/-- Modelled from the spec: the live Retrieval record of section 3 — the
request, the peers already tried (the exclusion set), the remaining retry
budget, the deduplicated waiting callers, and the current state. -/
structure Retrieval where
  req : Request
  tried : List PeerId
  budget : Nat
  waiters : List Caller
  rstate : RState
deriving DecidableEq

/-- Modelled from the spec: the events driving one Retrieval — a dispatch to
a chosen peer, the arming of the attempt timer, an incoming reply, the
validation step, an attempt timeout, and caller cancellation. -/
inductive REvent
  | dispatch (p : PeerId)
  | arm
  | reply (data : List Nat)
  | validate
  | timeout
  | cancel
deriving DecidableEq

/-- The environment of a retrieval: the verification collaborator (a black
box `Verify(proof, expectedRoot)`), the capability predicate, and the
currently connected peers. -/
structure Env where
  verify : List Nat → Nat → Option (List Nat)
  eligible : PeerId → Bool
  peers : List PeerId

/-- Modelled from the spec: handling of a failed attempt (section 4.4).
The attempted peer joins the exclusion set; with remaining retry budget and
a non-excluded eligible peer the retrieval loops back to `pending`,
otherwise it terminates with `retriesExhausted` (section 8: an attempt was
made, so the terminal error is not `noEligiblePeer`). -/
def failStep (env : Env) (p : PeerId) (r : Retrieval) : Retrieval :=
  if 0 < r.budget ∧ env.peers.any (fun q => env.eligible q && !((p :: r.tried).contains q)) then
    { r with tried := p :: r.tried, budget := r.budget - 1, rstate := .pending }
  else
    { r with tried := p :: r.tried, rstate := .failedTerminal .retriesExhausted }

/-- Modelled from the spec: one state transition of a Retrieval (section
4.4). Dispatch requires an eligible, connected, not-yet-excluded peer; a
verified reply reaches `done`; a failed validation or a timeout routes
through `failStep`; cancellation of a non-terminal retrieval terminates with
`cancelled`; every other event/state pair leaves the record unchanged. -/
def step (env : Env) (ev : REvent) (r : Retrieval) : Retrieval :=
  match ev, r.rstate with
  | .dispatch p, .pending =>
      if env.eligible p = true ∧ p ∈ env.peers ∧ p ∉ r.tried then
        { r with rstate := .sent p }
      else r
  | .arm, .sent p => { r with rstate := .waitingReply p }
  | .reply data, .waitingReply p => { r with rstate := .validating p data }
  | .validate, .validating p data =>
      match env.verify data r.req.root with
      | some v => { r with rstate := .done v }
      | none => failStep env p r
  | .timeout, .waitingReply p => failStep env p r
  | .cancel, s =>
      if s.isTerminal then r else { r with rstate := .failedTerminal .cancelled }
  | _, _ => r

/-- Run a Retrieval over a sequence of events. -/
def run (env : Env) (evs : List REvent) (r : Retrieval) : Retrieval :=
  evs.foldl (fun r ev => step env ev r) r

/-- The outcome released to callers in a terminal state. -/
def outcome : RState → Option (Except RError (List Nat))
  | .done v => some (Except.ok v)
  | .failedTerminal e => some (Except.error e)
  | _ => none

/-- Modelled from the spec: on reaching a terminal state every waiting
caller receives the one outcome; before that nothing is delivered. -/
def deliver (r : Retrieval) : List (Caller × Except RError (List Nat)) :=
  match outcome r.rstate with
  | some o => r.waiters.map (fun c => (c, o))
  | none => []

/-- Modelled from the spec: the first ask for a request key creates the
Retrieval; with no connected peer satisfying the capability predicate it
terminates immediately with `noEligiblePeer` (sections 4.3, 7 and 8),
otherwise it starts in `pending`. -/
def startRetrieval (env : Env) (req : Request) (budget : Nat) (c : Caller) : Retrieval :=
  if env.peers.any env.eligible then
    ⟨req, [], budget, [c], .pending⟩
  else
    ⟨req, [], budget, [c], .failedTerminal .noEligiblePeer⟩

/-- The ODR dedup table: the live Retrievals keyed by their request, and a
count of Retrievals created so far. -/
structure Dedup where
  live : List (Request × Retrieval)
  created : Nat
deriving DecidableEq

/-- The empty dedup table. -/
def Dedup.init : Dedup :=
  ⟨[], 0⟩

/-- Modelled from the spec: one ask at the ODR facade (section 4.4). An ask
whose key (type, payload, root) has a live Retrieval attaches the caller to
its waiter set; otherwise a new Retrieval is created for the key. -/
def ask (env : Env) (budget : Nat) (st : Dedup) (req : Request) (c : Caller) : Dedup :=
  if st.live.any (fun x => x.1 = req) then
    ⟨st.live.map
      (fun x =>
        if x.1 = req then (x.1, { x.2 with waiters := c :: x.2.waiters }) else x),
     st.created⟩
  else
    ⟨(req, startRetrieval env req budget c) :: st.live, st.created + 1⟩

end Retrieve

section MeterLemmas

open GdaProto

/-- Marking a pair updates exactly that pair's meters. -/
theorem markPair_same (ms : Meters) (k : MKind) (d : Dir) (size : Nat) :
    (ms.markPair k d size).packets k d = (ms.packets k d).mark 1 ∧
    (ms.markPair k d size).traffic k d = (ms.traffic k d).mark size := by
  constructor <;> simp [Meters.markPair]

/-- Marking a pair leaves every other pair's meters unchanged. -/
theorem markPair_other (ms : Meters) (k : MKind) (d : Dir) (size : Nat)
    (k' : MKind) (d' : Dir) (h : ¬(k' = k ∧ d' = d)) :
    (ms.markPair k d size).packets k' d' = ms.packets k' d' ∧
    (ms.markPair k d size).traffic k' d' = ms.traffic k' d' := by
  constructor <;> simp [Meters.markPair, if_neg h]

end MeterLemmas

/-- C4 counterexample: a receipts message read on a gda metered stream whose
protocol version is gda62 is accounted to the misc meters, not to the
receipt meters — so receipt messages are not accounted to their own meters
whenever they occur on the stream, contrary to the claim. -/
theorem C4_counterexample_receipts_below_gda63 :
    ((GdaProto.readMsg GdaProto.gda62
        (⟨GdaProto.ReceiptsMsg, 100⟩, none) GdaProto.Meters.init).2.packets
      GdaProto.MKind.receipt GdaProto.Dir.inb) = ⟨0, 0⟩ ∧
    ((GdaProto.readMsg GdaProto.gda62
        (⟨GdaProto.ReceiptsMsg, 100⟩, none) GdaProto.Meters.init).2.traffic
      GdaProto.MKind.receipt GdaProto.Dir.inb) = ⟨0, 0⟩ ∧
    ((GdaProto.readMsg GdaProto.gda62
        (⟨GdaProto.ReceiptsMsg, 100⟩, none) GdaProto.Meters.init).2.packets
      GdaProto.MKind.misc GdaProto.Dir.inb) = ⟨1, 1⟩ ∧
    ((GdaProto.readMsg GdaProto.gda62
        (⟨GdaProto.ReceiptsMsg, 100⟩, none) GdaProto.Meters.init).2.traffic
      GdaProto.MKind.misc GdaProto.Dir.inb) = ⟨1, 100⟩ := by
  refine ⟨?_, ?_, ?_, ?_⟩ <;> rfl

/-- C4 as amended: on the gda metered stream every successfully read message
and every written message marks exactly one meter pair — one packet and the
message's byte size, inbound and outbound separately — selected by the
message kind, where state and receipt messages select their own meters
exactly when the protocol version is at least gda63 and otherwise fall to
misc; the les metered stream accounts every message to its misc meters
only. -/
theorem C4_amended_meter_accounting
    (version : Nat) (msg : GdaProto.Msg) (ms : GdaProto.Meters)
    (werr : Option String) (lms : LesProto.Meters) :
    ((GdaProto.readMsg version (msg, none) ms).2.packets
        (GdaProto.selectKind version msg.Code) .inb
      = (ms.packets (GdaProto.selectKind version msg.Code) .inb).mark 1 ∧
     (GdaProto.readMsg version (msg, none) ms).2.traffic
        (GdaProto.selectKind version msg.Code) .inb
      = (ms.traffic (GdaProto.selectKind version msg.Code) .inb).mark msg.Size ∧
     ∀ k' d', ¬(k' = GdaProto.selectKind version msg.Code ∧ d' = GdaProto.Dir.inb) →
       (GdaProto.readMsg version (msg, none) ms).2.packets k' d' = ms.packets k' d' ∧
       (GdaProto.readMsg version (msg, none) ms).2.traffic k' d' = ms.traffic k' d') ∧
    ((GdaProto.writeMsg version msg werr ms).2.packets
        (GdaProto.selectKind version msg.Code) .outb
      = (ms.packets (GdaProto.selectKind version msg.Code) .outb).mark 1 ∧
     (GdaProto.writeMsg version msg werr ms).2.traffic
        (GdaProto.selectKind version msg.Code) .outb
      = (ms.traffic (GdaProto.selectKind version msg.Code) .outb).mark msg.Size ∧
     ∀ k' d', ¬(k' = GdaProto.selectKind version msg.Code ∧ d' = GdaProto.Dir.outb) →
       (GdaProto.writeMsg version msg werr ms).2.packets k' d' = ms.packets k' d' ∧
       (GdaProto.writeMsg version msg werr ms).2.traffic k' d' = ms.traffic k' d') ∧
    (GdaProto.gda63 ≤ version →
      GdaProto.selectKind version GdaProto.NodeDataMsg = .stateK ∧
      GdaProto.selectKind version GdaProto.ReceiptsMsg = .receipt) ∧
    (version < GdaProto.gda63 →
      GdaProto.selectKind version GdaProto.NodeDataMsg = .misc ∧
      GdaProto.selectKind version GdaProto.ReceiptsMsg = .misc) ∧
    ((LesProto.readMsg (msg, none) lms).2
      = ⟨lms.miscInPackets.mark 1, lms.miscInTraffic.mark msg.Size,
         lms.miscOutPackets, lms.miscOutTraffic⟩) ∧
    ((LesProto.writeMsg msg werr lms).2
      = ⟨lms.miscInPackets, lms.miscInTraffic,
         lms.miscOutPackets.mark 1, lms.miscOutTraffic.mark msg.Size⟩) := by
  refine ⟨⟨?_, ?_, ?_⟩, ⟨?_, ?_, ?_⟩, ?_, ?_, rfl, rfl⟩
  · exact (markPair_same ms _ _ _).1
  · exact (markPair_same ms _ _ _).2
  · intro k' d' h
    exact markPair_other ms _ _ _ k' d' h
  · exact (markPair_same ms _ _ _).1
  · exact (markPair_same ms _ _ _).2
  · intro k' d' h
    exact markPair_other ms _ _ _ k' d' h
  · intro hv
    constructor <;>
      simp [GdaProto.selectKind, hv, GdaProto.BlockHeadersMsg, GdaProto.BlockBodiesMsg,
        GdaProto.NodeDataMsg, GdaProto.ReceiptsMsg]
  · intro hv
    have hv' : ¬ GdaProto.gda63 ≤ version := by omega
    constructor <;>
      simp [GdaProto.selectKind, hv', GdaProto.BlockHeadersMsg, GdaProto.BlockBodiesMsg,
        GdaProto.NodeDataMsg, GdaProto.ReceiptsMsg, GdaProto.NewBlockHashesMsg,
        GdaProto.NewBlockMsg, GdaProto.TxMsg]

/-- Witness for C4 as amended: a receipts message of size 5 at version gda63
marks the receipt inbound meters and leaves the header outbound meters
alone; below gda63 the receipts code selects misc. -/
theorem C4_amended_meter_accounting_witness :
    (GdaProto.gda63 ≤ 63 ∧
      GdaProto.selectKind 63 GdaProto.ReceiptsMsg = .receipt) ∧
    ((GdaProto.readMsg 63 (⟨GdaProto.ReceiptsMsg, 5⟩, none) GdaProto.Meters.init).2.packets
        (GdaProto.selectKind 63 GdaProto.ReceiptsMsg) .inb
      = (GdaProto.Meters.init.packets
          (GdaProto.selectKind 63 GdaProto.ReceiptsMsg) .inb).mark 1) ∧
    (¬(GdaProto.MKind.header = GdaProto.selectKind 63 GdaProto.ReceiptsMsg ∧
        GdaProto.Dir.outb = GdaProto.Dir.inb) ∧
      (GdaProto.readMsg 63 (⟨GdaProto.ReceiptsMsg, 5⟩, none) GdaProto.Meters.init).2.packets
        GdaProto.MKind.header GdaProto.Dir.outb
        = GdaProto.Meters.init.packets GdaProto.MKind.header GdaProto.Dir.outb) ∧
    ((62 : Nat) < GdaProto.gda63 ∧
      GdaProto.selectKind 62 GdaProto.ReceiptsMsg = .misc) := by
  have h63 := C4_amended_meter_accounting 63 ⟨GdaProto.ReceiptsMsg, 5⟩
    GdaProto.Meters.init none LesProto.Meters.init
  have h62 := C4_amended_meter_accounting 62 ⟨GdaProto.ReceiptsMsg, 5⟩
    GdaProto.Meters.init none LesProto.Meters.init
  refine ⟨⟨by decide, (h63.2.2.1 (by decide)).2⟩, h63.1.1,
    ⟨by decide, (h63.1.2.2 GdaProto.MKind.header GdaProto.Dir.outb (by decide)).1⟩,
    ⟨by decide, (h62.2.2.2.1 (by decide)).2⟩⟩

/-- C5: for every wrapped stream and message, the metered wrappers (both the
gda one and the les one) return exactly the message and error produced by the
underlying stream: accounting never alters content, suppresses an error or
introduces one. -/
theorem C5_metering_is_transparent
    (version : Nat) (res : GdaProto.Msg × Option String) (msg : GdaProto.Msg)
    (werr : Option String) (ms : GdaProto.Meters) (lms : LesProto.Meters) :
    (GdaProto.readMsg version res ms).1 = res ∧
    (GdaProto.writeMsg version msg werr ms).1 = werr ∧
    (LesProto.readMsg res lms).1 = res ∧
    (LesProto.writeMsg msg werr lms).1 = werr := by
  obtain ⟨m, e⟩ := res
  cases e <;> simp [GdaProto.readMsg, GdaProto.writeMsg, LesProto.readMsg, LesProto.writeMsg]

/-- C9: for every protocol version other than lpv1 and lpv2 the
discovery-topic function refuses to return a topic (the source panics,
modelled as `none`), for any genesis hash. -/
theorem C9_lesTopic_panics_on_unknown_version
    (h : List Nat) (v : Nat)
    (h1 : v ≠ LesDiscovery.lpv1) (h2 : v ≠ LesDiscovery.lpv2) :
    LesDiscovery.lesTopic h v = none := by
  simp [LesDiscovery.lesTopic, h1, h2]

/-- Witness for C9 at version 7. -/
theorem C9_lesTopic_panics_on_unknown_version_witness :
    ((7 : Nat) ≠ LesDiscovery.lpv1 ∧ (7 : Nat) ≠ LesDiscovery.lpv2) ∧
    LesDiscovery.lesTopic [0] 7 = none :=
  ⟨⟨by decide, by decide⟩,
   C9_lesTopic_panics_on_unknown_version [0] 7 (by decide) (by decide)⟩

/-- C10: a configuration in light sync mode makes `gda.New` return a nil
service and an error before any side effect (no database opened, no chain
state created), and any invalid sync mode is likewise rejected with an
error, whatever the rest of the constructor would have produced. -/
theorem C10_new_rejects_light_and_invalid_sync
    (cfg : GdaBackend.Config) (rest : GdaBackend.NewResult) :
    (cfg.SyncMode = GdaBackend.LightSync →
      (GdaBackend.New cfg rest).service = none ∧
      (GdaBackend.New cfg rest).err.isSome = true ∧
      (GdaBackend.New cfg rest).effects = []) ∧
    (GdaBackend.IsValid cfg.SyncMode = false →
      (GdaBackend.New cfg rest).service = none ∧
      (GdaBackend.New cfg rest).err.isSome = true ∧
      (GdaBackend.New cfg rest).effects = []) := by
  constructor
  · intro hmode
    simp [GdaBackend.New, hmode]
  · intro hvalid
    have hne : cfg.SyncMode ≠ GdaBackend.LightSync := by
      intro h
      rw [h] at hvalid
      simp [GdaBackend.IsValid, GdaBackend.FullSync, GdaBackend.LightSync] at hvalid
    simp [GdaBackend.New, hne, hvalid]

/-- Witness for C10: light sync mode (2) and an invalid mode (5), against a
continuation that would have opened the database. -/
theorem C10_new_rejects_light_and_invalid_sync_witness :
    ((⟨GdaBackend.LightSync⟩ : GdaBackend.Config).SyncMode = GdaBackend.LightSync ∧
      (GdaBackend.New ⟨GdaBackend.LightSync⟩
        ⟨some (), none, [GdaBackend.NewEffect.createDB]⟩).service = none ∧
      (GdaBackend.New ⟨GdaBackend.LightSync⟩
        ⟨some (), none, [GdaBackend.NewEffect.createDB]⟩).err.isSome = true ∧
      (GdaBackend.New ⟨GdaBackend.LightSync⟩
        ⟨some (), none, [GdaBackend.NewEffect.createDB]⟩).effects = []) ∧
    (GdaBackend.IsValid (⟨5⟩ : GdaBackend.Config).SyncMode = false ∧
      (GdaBackend.New ⟨5⟩ ⟨some (), none, [GdaBackend.NewEffect.createDB]⟩).service = none ∧
      (GdaBackend.New ⟨5⟩ ⟨some (), none, [GdaBackend.NewEffect.createDB]⟩).err.isSome = true ∧
      (GdaBackend.New ⟨5⟩ ⟨some (), none, [GdaBackend.NewEffect.createDB]⟩).effects = []) :=
  ⟨⟨rfl,
    (C10_new_rejects_light_and_invalid_sync ⟨GdaBackend.LightSync⟩
      ⟨some (), none, [GdaBackend.NewEffect.createDB]⟩).1 rfl⟩,
   ⟨by decide,
    (C10_new_rejects_light_and_invalid_sync ⟨5⟩
      ⟨some (), none, [GdaBackend.NewEffect.createDB]⟩).2 (by decide)⟩⟩

section HexLemmas

open LesDiscovery

/-- Hex digit characters are distinct across the 16 digit values. -/
theorem nibToChar_inj_fin :
    ∀ a b : Fin 16, nibToChar a.val = nibToChar b.val → a = b := by
  decide

/-- Hex digit injectivity on naturals below 16. -/
theorem nibToChar_inj (a b : Nat) (ha : a < 16) (hb : b < 16)
    (h : nibToChar a = nibToChar b) : a = b := by
  have := nibToChar_inj_fin ⟨a, ha⟩ ⟨b, hb⟩ h
  exact congrArg Fin.val this

/-- Byte-to-hex injectivity on bytes. -/
theorem byteToHex_inj (a b : Nat) (ha : a < 256) (hb : b < 256)
    (h : byteToHex a = byteToHex b) : a = b := by
  simp only [byteToHex, List.cons.injEq, and_true] at h
  have hdiv : a / 16 = b / 16 :=
    nibToChar_inj _ _ (Nat.div_lt_of_lt_mul (by omega)) (Nat.div_lt_of_lt_mul (by omega)) h.1
  have hmod : a % 16 = b % 16 :=
    nibToChar_inj _ _ (Nat.mod_lt _ (by omega)) (Nat.mod_lt _ (by omega)) h.2
  omega

/-- Hex encoding of byte sequences is injective. -/
theorem bytesToHexChars_inj :
    ∀ (as bs : List Nat), (∀ a ∈ as, a < 256) → (∀ b ∈ bs, b < 256) →
      bytesToHexChars as = bytesToHexChars bs → as = bs := by
  intro as
  induction as with
  | nil =>
      intro bs _ _ h
      cases bs with
      | nil => rfl
      | cons b bs => simp [bytesToHexChars, byteToHex] at h
  | cons a as ih =>
      intro bs ha hb h
      cases bs with
      | nil => simp [bytesToHexChars, byteToHex] at h
      | cons b bs =>
          simp only [bytesToHexChars, byteToHex, List.cons_append, List.nil_append,
            List.cons.injEq] at h
          obtain ⟨h1, h2, h3⟩ := h
          have ha' : a < 256 := ha a (by simp)
          have hb' : b < 256 := hb b (by simp)
          have hab : a = b := byteToHex_inj a b ha' hb' (by simp [byteToHex, h1, h2])
          have hrest : as = bs :=
            ih bs (fun x hx => ha x (by simp [hx])) (fun x hx => hb x (by simp [hx])) h3
          rw [hab, hrest]

/-- A topic for lpv1 never equals a topic for lpv2: the strings differ at
the fourth character. -/
theorem topic_name_ne (l1 l2 : List Char) :
    ("LES" ++ "@" ++ (⟨l1⟩ : String)) ≠ ("LES2" ++ "@" ++ (⟨l2⟩ : String)) := by
  intro h
  have hd := congrArg String.data h
  rw [String.data_append, String.data_append, String.data_append, String.data_append] at hd
  have hd' : ('L' :: 'E' :: 'S' :: '@' :: l1) = ('L' :: 'E' :: 'S' :: '2' :: '@' :: l2) := hd
  simp only [List.cons.injEq] at hd'
  exact absurd hd'.2.2.2.1 (by decide)

end HexLemmas

/-- C3: for every genesis hash the discovery topic for lpv1 is the string
"LES" followed by "@" followed by the hex encoding of the first 8 bytes,
and for lpv2 it is "LES2" followed by "@" followed by the same hex prefix;
two clients on supported versions compute the same topic if and only if
they agree on the protocol version and on the first 8 bytes of the genesis
hash. -/
theorem C3_lesTopic_characterisation
    (h1 h2 : List Nat) (v1 v2 : Nat)
    (hv1 : v1 = LesDiscovery.lpv1 ∨ v1 = LesDiscovery.lpv2)
    (hv2 : v2 = LesDiscovery.lpv1 ∨ v2 = LesDiscovery.lpv2)
    (hb1 : ∀ b ∈ h1, b < 256) (hb2 : ∀ b ∈ h2, b < 256) :
    LesDiscovery.lesTopic h1 LesDiscovery.lpv1
      = some ("LES" ++ "@" ++ LesDiscovery.Bytes2Hex (h1.take 8)) ∧
    LesDiscovery.lesTopic h1 LesDiscovery.lpv2
      = some ("LES2" ++ "@" ++ LesDiscovery.Bytes2Hex (h1.take 8)) ∧
    (LesDiscovery.lesTopic h1 v1 = LesDiscovery.lesTopic h2 v2 ↔
      (v1 = v2 ∧ h1.take 8 = h2.take 8)) := by
  have hb1' : ∀ b ∈ h1.take 8, b < 256 := fun b hb => hb1 b (List.take_subset 8 h1 hb)
  have hb2' : ∀ b ∈ h2.take 8, b < 256 := fun b hb => hb2 b (List.take_subset 8 h2 hb)
  refine ⟨rfl, rfl, ?_, ?_⟩
  · intro heq
    rcases hv1 with rfl | rfl <;> rcases hv2 with rfl | rfl
    · have hs := Option.some.inj heq
      have hd := congrArg String.data hs
      rw [String.data_append, String.data_append, String.data_append,
        String.data_append] at hd
      have hd' : (['L', 'E', 'S', '@'] ++ LesDiscovery.bytesToHexChars (h1.take 8))
          = (['L', 'E', 'S', '@'] ++ LesDiscovery.bytesToHexChars (h2.take 8)) := hd
      have hx := List.append_cancel_left hd'
      exact ⟨rfl, bytesToHexChars_inj _ _ hb1' hb2' hx⟩
    · exact absurd (Option.some.inj heq) (topic_name_ne _ _)
    · exact absurd (Option.some.inj heq).symm (topic_name_ne _ _)
    · have hs := Option.some.inj heq
      have hd := congrArg String.data hs
      rw [String.data_append, String.data_append, String.data_append,
        String.data_append] at hd
      have hd' : (['L', 'E', 'S', '2', '@'] ++ LesDiscovery.bytesToHexChars (h1.take 8))
          = (['L', 'E', 'S', '2', '@'] ++ LesDiscovery.bytesToHexChars (h2.take 8)) := hd
      have hx := List.append_cancel_left hd'
      exact ⟨rfl, bytesToHexChars_inj _ _ hb1' hb2' hx⟩
  · rintro ⟨rfl, htake⟩
    simp only [LesDiscovery.lesTopic, LesDiscovery.Bytes2Hex, htake]

/-- Witness for C3: two 9-byte hashes agreeing on their first 8 bytes give
the same lpv1 topic. -/
theorem C3_lesTopic_characterisation_witness :
    ((LesDiscovery.lpv1 = LesDiscovery.lpv1 ∨ LesDiscovery.lpv1 = LesDiscovery.lpv2) ∧
      (∀ b ∈ [1, 2, 3, 4, 5, 6, 7, 8, 9], b < 256) ∧
      (∀ b ∈ [1, 2, 3, 4, 5, 6, 7, 8, 255], b < 256)) ∧
    LesDiscovery.lesTopic [1, 2, 3, 4, 5, 6, 7, 8, 9] LesDiscovery.lpv1
      = LesDiscovery.lesTopic [1, 2, 3, 4, 5, 6, 7, 8, 255] LesDiscovery.lpv1 :=
  ⟨⟨Or.inl rfl, by decide, by decide⟩,
   (C3_lesTopic_characterisation [1, 2, 3, 4, 5, 6, 7, 8, 9] [1, 2, 3, 4, 5, 6, 7, 8, 255]
      LesDiscovery.lpv1 LesDiscovery.lpv1 (Or.inl rfl) (Or.inl rfl)
      (by decide) (by decide)).2.2.mpr ⟨rfl, by decide⟩⟩

/-- C8: for every receipt whose post state is empty or exactly 32 bytes and
whose status is failed or successful, decoding the consensus encoding
produced by EncodeRLP succeeds and reproduces the consensus fields: the
combined status / post-state information, CumulativeGasUsed, Bloom and
Logs. -/
theorem C8_receipt_rlp_roundtrip (r : Types.Receipt)
    (hp : r.Posgdaate = [] ∨ r.Posgdaate.length = 32)
    (hs : r.Status = Types.ReceipgdaatusFailed ∨ r.Status = Types.ReceipgdaatusSuccessful) :
    ∃ r' : Types.Receipt,
      Types.Receipt.empty.DecodeRLP r.EncodeRLP = Except.ok r' ∧
      r'.statusEncoding = r.statusEncoding ∧
      r'.Posgdaate = r.Posgdaate ∧
      (r.Posgdaate = [] → r'.Status = r.Status) ∧
      r'.CumulativeGasUsed = r.CumulativeGasUsed ∧
      r'.Bloom = r.Bloom ∧
      r'.Logs = r.Logs := by
  obtain ⟨P, S, cgu, bloom, logs, th, ca, gu⟩ := r
  rcases hp with hp | hp
  · simp only at hp
    subst hp
    rcases hs with hs | hs <;> simp only [Types.ReceipgdaatusFailed,
      Types.ReceipgdaatusSuccessful] at hs <;> subst hs
    · exact ⟨⟨[], 0, cgu, bloom, logs, [], [], 0⟩, rfl, rfl, rfl, fun _ => rfl, rfl, rfl, rfl⟩
    · exact ⟨⟨[], 1, cgu, bloom, logs, [], [], 0⟩, rfl, rfl, rfl, fun _ => rfl, rfl, rfl, rfl⟩
  · simp only at hp
    have h1 : P ≠ Types.receipgdaatusSuccessfulRLP := by
      intro h
      rw [h] at hp
      simp [Types.receipgdaatusSuccessfulRLP] at hp
    have h2 : P ≠ Types.receipgdaatusFailedRLP := by
      intro h
      rw [h] at hp
      simp [Types.receipgdaatusFailedRLP] at hp
    have hne : ¬ P.length = 0 := by omega
    refine ⟨⟨P, 0, cgu, bloom, logs, [], [], 0⟩, ?_, ?_, rfl, ?_, rfl, rfl, rfl⟩
    · have henc : Types.Receipt.statusEncoding ⟨P, S, cgu, bloom, logs, th, ca, gu⟩ = P := by
        simp [Types.Receipt.statusEncoding, hne]
      simp [Types.Receipt.DecodeRLP, Types.Receipt.EncodeRLP, henc, Types.Receipt.segdaatus,
        Types.Receipt.empty, h1, h2, hp, Except.map]
    · simp [Types.Receipt.statusEncoding, hne]
    · intro h
      exfalso
      have hP : P = [] := h
      rw [hP] at hp
      simp at hp

/-- Witness for C8: a successful receipt with empty post state round-trips
through the consensus encoding. -/
theorem C8_receipt_rlp_roundtrip_witness :
    (((⟨[], 1, 5, [2], [3, 4], [], [], 9⟩ : Types.Receipt).Posgdaate = [] ∨
        (⟨[], 1, 5, [2], [3, 4], [], [], 9⟩ : Types.Receipt).Posgdaate.length = 32) ∧
      ((⟨[], 1, 5, [2], [3, 4], [], [], 9⟩ : Types.Receipt).Status
          = Types.ReceipgdaatusFailed ∨
        (⟨[], 1, 5, [2], [3, 4], [], [], 9⟩ : Types.Receipt).Status
          = Types.ReceipgdaatusSuccessful)) ∧
    (∃ r' : Types.Receipt,
      Types.Receipt.empty.DecodeRLP
          (⟨[], 1, 5, [2], [3, 4], [], [], 9⟩ : Types.Receipt).EncodeRLP = Except.ok r' ∧
      r'.statusEncoding = (⟨[], 1, 5, [2], [3, 4], [], [], 9⟩ : Types.Receipt).statusEncoding ∧
      r'.Posgdaate = (⟨[], 1, 5, [2], [3, 4], [], [], 9⟩ : Types.Receipt).Posgdaate ∧
      ((⟨[], 1, 5, [2], [3, 4], [], [], 9⟩ : Types.Receipt).Posgdaate = [] →
        r'.Status = (⟨[], 1, 5, [2], [3, 4], [], [], 9⟩ : Types.Receipt).Status) ∧
      r'.CumulativeGasUsed
        = (⟨[], 1, 5, [2], [3, 4], [], [], 9⟩ : Types.Receipt).CumulativeGasUsed ∧
      r'.Bloom = (⟨[], 1, 5, [2], [3, 4], [], [], 9⟩ : Types.Receipt).Bloom ∧
      r'.Logs = (⟨[], 1, 5, [2], [3, 4], [], [], 9⟩ : Types.Receipt).Logs) :=
  ⟨⟨Or.inl rfl, Or.inr rfl⟩,
   C8_receipt_rlp_roundtrip ⟨[], 1, 5, [2], [3, 4], [], [], 9⟩ (Or.inl rfl) (Or.inr rfl)⟩

section RetrieveLemmas

open Retrieve

/-- A failed attempt preserves the request. -/
theorem failStep_req (env : Env) (p : PeerId) (r : Retrieval) :
    (Retrieve.failStep env p r).req = r.req := by
  simp only [Retrieve.failStep]
  split <;> rfl

/-- A failed attempt adds the attempted peer to the exclusion set. -/
theorem failStep_tried (env : Env) (p : PeerId) (r : Retrieval) :
    (Retrieve.failStep env p r).tried = p :: r.tried := by
  simp only [Retrieve.failStep]
  split <;> rfl

/-- A failed attempt moves to pending or to a terminal error. -/
theorem failStep_rstate (env : Env) (p : PeerId) (r : Retrieval) :
    (Retrieve.failStep env p r).rstate = RState.pending ∨
    (Retrieve.failStep env p r).rstate
      = RState.failedTerminal RError.retriesExhausted := by
  simp only [Retrieve.failStep]
  split
  · left
    rfl
  · right
    rfl

/-- A step never changes the request bound to a Retrieval. -/
theorem step_req (env : Env) (ev : REvent) (r : Retrieval) :
    (Retrieve.step env ev r).req = r.req := by
  obtain ⟨req, tried, budget, waiters, rs⟩ := r
  cases ev <;> cases rs <;>
    first
      | rfl
      | (simp only [Retrieve.step]
         repeat' split
         all_goals first
           | rfl
           | exact failStep_req _ _ _)

/-- A step never removes a peer from the exclusion set. -/
theorem step_tried_mono (env : Env) (ev : REvent) (r : Retrieval) :
    r.tried ⊆ (Retrieve.step env ev r).tried := by
  obtain ⟨req, tried, budget, waiters, rs⟩ := r
  cases ev <;> cases rs <;>
    first
      | exact fun _ h => h
      | (simp only [Retrieve.step]
         repeat' split
         all_goals first
           | exact fun _ h => h
           | (rw [failStep_tried]
              exact fun x h => List.mem_cons_of_mem _ h))

/-- A terminally failed Retrieval is absorbing: no event changes it. -/
theorem step_terminal_absorb (env : Env) (ev : REvent) (r : Retrieval) (e : RError)
    (h : r.rstate = RState.failedTerminal e) : Retrieve.step env ev r = r := by
  obtain ⟨req, tried, budget, waiters, rs⟩ := r
  simp only at h
  subst h
  cases ev <;> rfl

/-- A terminally failed Retrieval stays terminally failed over any run. -/
theorem run_terminal_absorb (env : Env) (evs : List REvent) (r : Retrieval) (e : RError)
    (h : r.rstate = RState.failedTerminal e) : Retrieve.run env evs r = r := by
  induction evs with
  | nil => rfl
  | cons ev evs ih =>
      show Retrieve.run env evs (Retrieve.step env ev r) = r
      rw [step_terminal_absorb env ev r e h, ih]

/-- One step preserves the invariant that a done state carries a value the
verification collaborator accepted for the Retrieval's root. -/
theorem step_verified (env : Env) (ev : REvent) (r : Retrieval)
    (h : ∀ v, r.rstate = RState.done v → ∃ d, env.verify d r.req.root = some v) :
    ∀ v, (Retrieve.step env ev r).rstate = RState.done v →
      ∃ d, env.verify d r.req.root = some v := by
  obtain ⟨req, tried, budget, waiters, rs⟩ := r
  intro v hv
  cases ev <;> cases rs <;>
    first
      | exact h v hv
      | exact Retrieve.RState.noConfusion hv
      | skip
  case dispatch.pending p =>
      simp only [Retrieve.step] at hv
      split at hv <;> exact Retrieve.RState.noConfusion hv
  case validate.validating p data =>
      simp only [Retrieve.step] at hv
      cases hvf : env.verify data req.root with
      | some v' =>
          rw [hvf] at hv
          have hvv : v' = v := by
            have hv' : RState.done v' = RState.done v := hv
            injection hv'
          exact ⟨data, by rw [hvf, hvv]⟩
      | none =>
          rw [hvf] at hv
          rcases failStep_rstate env p ⟨req, tried, budget, waiters, .validating p data⟩ with
            hfs | hfs <;> rw [hfs] at hv <;> exact Retrieve.RState.noConfusion hv
  case timeout.waitingReply p =>
      simp only [Retrieve.step] at hv
      rcases failStep_rstate env p ⟨req, tried, budget, waiters, .waitingReply p⟩ with
        hfs | hfs <;> rw [hfs] at hv <;> exact Retrieve.RState.noConfusion hv

/-- A whole run preserves the verified-done invariant. -/
theorem run_verified (env : Env) (evs : List REvent) :
    ∀ r : Retrieval,
      (∀ v, r.rstate = RState.done v → ∃ d, env.verify d r.req.root = some v) →
      ∀ v, (Retrieve.run env evs r).rstate = RState.done v →
        ∃ d, env.verify d r.req.root = some v := by
  induction evs with
  | nil => intro r h; exact h
  | cons ev evs ih =>
      intro r h v hv
      have hreq := step_req env ev r
      have hstep := step_verified env ev r h
      have hstep' : ∀ v, (Retrieve.step env ev r).rstate = RState.done v →
          ∃ d, env.verify d (Retrieve.step env ev r).req.root = some v := by
        intro v hv
        rw [hreq]
        exact hstep v hv
      have := ih (Retrieve.step env ev r) hstep' v hv
      rwa [hreq] at this

/-- An ok outcome is delivered only from a done state with that value. -/
theorem deliver_ok (r : Retrieval) (c : Caller) (v : List Nat)
    (h : (c, Except.ok v) ∈ Retrieve.deliver r) : r.rstate = RState.done v := by
  unfold Retrieve.deliver at h
  cases hr : r.rstate <;> rw [hr] at h <;> simp [Retrieve.outcome] at h
  case done v0 =>
      obtain ⟨a, ha, hac, hvv⟩ := h
      rw [hvv]

end RetrieveLemmas

/-- C1: over any run of a Retrieval from pending, a value delivered to a
waiting caller has passed verification against the Retrieval's root, and a
validation failure always routes to a retry (pending) or to a terminal
error, never to done. -/
theorem C1_no_unverified_value_delivered
    (env : Retrieve.Env) (evs : List Retrieve.REvent) (r0 : Retrieve.Retrieval)
    (c : Retrieve.Caller) (v : List Nat)
    (h0 : r0.rstate = Retrieve.RState.pending) :
    ((c, Except.ok v) ∈ Retrieve.deliver (Retrieve.run env evs r0) →
      ∃ d, env.verify d r0.req.root = some v) ∧
    (∀ (p : Retrieve.PeerId) (data : List Nat) (r : Retrieve.Retrieval),
      r.rstate = Retrieve.RState.validating p data →
      env.verify data r.req.root = none →
      (Retrieve.step env Retrieve.REvent.validate r).rstate = Retrieve.RState.pending ∨
      ∃ e, (Retrieve.step env Retrieve.REvent.validate r).rstate
        = Retrieve.RState.failedTerminal e) := by
  constructor
  · intro hmem
    have hdone := deliver_ok _ c v hmem
    refine run_verified env evs r0 ?_ v hdone
    intro v' hv'
    rw [h0] at hv'
    cases hv'
  · intro p data r hr hv
    obtain ⟨req, tried, budget, waiters, rs⟩ := r
    simp only at hr
    subst hr
    simp only at hv
    simp only [Retrieve.step, hv]
    rcases failStep_rstate env p ⟨req, tried, budget, waiters, .validating p data⟩ with
      hfs | hfs
    · left
      exact hfs
    · right
      exact ⟨Retrieve.RError.retriesExhausted, hfs⟩

/-- Witness for C1: a one-peer environment whose verifier accepts the reply
as-is; the delivered value is verified. -/
theorem C1_no_unverified_value_delivered_witness :
    ((⟨⟨0, [], 0⟩, [], 1, [10], Retrieve.RState.pending⟩ : Retrieve.Retrieval).rstate
      = Retrieve.RState.pending) ∧
    (∃ d, (⟨fun d _ => some d, fun _ => true, [1]⟩ : Retrieve.Env).verify d
      (⟨⟨0, [], 0⟩, [], 1, [10], Retrieve.RState.pending⟩ : Retrieve.Retrieval).req.root
      = some [5]) :=
  ⟨rfl,
   (C1_no_unverified_value_delivered ⟨fun d _ => some d, fun _ => true, [1]⟩
      [Retrieve.REvent.dispatch 1, Retrieve.REvent.arm, Retrieve.REvent.reply [5],
        Retrieve.REvent.validate]
      ⟨⟨0, [], 0⟩, [], 1, [10], Retrieve.RState.pending⟩ 10 [5] rfl).1
    (List.Mem.head _)⟩

/-- C6: the peer-exclusion set of a Retrieval only grows under every state
transition; every failed attempt (timeout or invalid proof) adds the
attempted peer to it; and a peer already excluded is never dispatched again
for the same Retrieval. -/
theorem C6_exclusion_set_only_grows
    (env : Retrieve.Env) (ev : Retrieve.REvent) (r : Retrieve.Retrieval)
    (p : Retrieve.PeerId) (data : List Nat) :
    (r.tried ⊆ (Retrieve.step env ev r).tried) ∧
    (r.rstate = Retrieve.RState.waitingReply p →
      (Retrieve.step env Retrieve.REvent.timeout r).tried = p :: r.tried) ∧
    (r.rstate = Retrieve.RState.validating p data →
      env.verify data r.req.root = none →
      (Retrieve.step env Retrieve.REvent.validate r).tried = p :: r.tried) ∧
    (p ∈ r.tried → Retrieve.step env (Retrieve.REvent.dispatch p) r = r) := by
  refine ⟨step_tried_mono env ev r, ?_, ?_, ?_⟩
  · intro hr
    obtain ⟨req, tried, budget, waiters, rs⟩ := r
    simp only at hr
    subst hr
    simp only [Retrieve.step]
    exact failStep_tried env p _
  · intro hr hv
    obtain ⟨req, tried, budget, waiters, rs⟩ := r
    simp only at hr
    subst hr
    simp only at hv
    simp only [Retrieve.step, hv]
    exact failStep_tried env p _
  · intro hp
    obtain ⟨req, tried, budget, waiters, rs⟩ := r
    simp only at hp
    cases rs <;>
      first
        | rfl
        | (simp only [Retrieve.step]
           rw [if_neg]
           intro hcond
           exact hcond.2.2 hp)

/-- Witness for C6: a timeout adds peer 3, an invalid proof adds peer 2, and
re-dispatching the excluded peer 3 is a no-op. -/
theorem C6_exclusion_set_only_grows_witness :
    ((⟨⟨0, [], 0⟩, [3], 1, [], Retrieve.RState.waitingReply 3⟩ : Retrieve.Retrieval).rstate
        = Retrieve.RState.waitingReply 3 ∧
      (Retrieve.step ⟨fun _ _ => none, fun _ => true, [1, 2]⟩ Retrieve.REvent.timeout
        ⟨⟨0, [], 0⟩, [3], 1, [], Retrieve.RState.waitingReply 3⟩).tried = 3 :: [3]) ∧
    ((⟨⟨0, [], 0⟩, [], 1, [], Retrieve.RState.validating 2 [7]⟩ : Retrieve.Retrieval).rstate
        = Retrieve.RState.validating 2 [7] ∧
      (⟨fun _ _ => none, fun _ => true, [1, 2]⟩ : Retrieve.Env).verify [7]
        (⟨⟨0, [], 0⟩, [], 1, [], Retrieve.RState.validating 2 [7]⟩ :
          Retrieve.Retrieval).req.root = none ∧
      (Retrieve.step ⟨fun _ _ => none, fun _ => true, [1, 2]⟩ Retrieve.REvent.validate
        ⟨⟨0, [], 0⟩, [], 1, [], Retrieve.RState.validating 2 [7]⟩).tried = 2 :: []) ∧
    ((3 : Retrieve.PeerId) ∈
        (⟨⟨0, [], 0⟩, [3], 1, [], Retrieve.RState.waitingReply 3⟩ :
          Retrieve.Retrieval).tried ∧
      Retrieve.step ⟨fun _ _ => none, fun _ => true, [1, 2]⟩ (Retrieve.REvent.dispatch 3)
        ⟨⟨0, [], 0⟩, [3], 1, [], Retrieve.RState.waitingReply 3⟩
        = ⟨⟨0, [], 0⟩, [3], 1, [], Retrieve.RState.waitingReply 3⟩) :=
  ⟨⟨rfl,
    (C6_exclusion_set_only_grows ⟨fun _ _ => none, fun _ => true, [1, 2]⟩
      Retrieve.REvent.timeout ⟨⟨0, [], 0⟩, [3], 1, [], Retrieve.RState.waitingReply 3⟩
      3 [7]).2.1 rfl⟩,
   ⟨rfl, rfl,
    (C6_exclusion_set_only_grows ⟨fun _ _ => none, fun _ => true, [1, 2]⟩
      Retrieve.REvent.validate ⟨⟨0, [], 0⟩, [], 1, [], Retrieve.RState.validating 2 [7]⟩
      2 [7]).2.2.1 rfl rfl⟩,
   ⟨List.Mem.head _,
    (C6_exclusion_set_only_grows ⟨fun _ _ => none, fun _ => true, [1, 2]⟩
      Retrieve.REvent.timeout ⟨⟨0, [], 0⟩, [3], 1, [], Retrieve.RState.waitingReply 3⟩
      3 [7]).2.2.2 (List.Mem.head _)⟩⟩

/-- C7: when no connected peer satisfies the capability predicate, a fresh
ask terminates immediately with the NoEligiblePeer error, and no subsequent
events can ever bring the Retrieval into a dispatched (sent) or
timer-armed (waitingReply) state. -/
theorem C7_no_eligible_peer_immediate_error
    (env : Retrieve.Env) (req : Retrieve.Request) (budget : Nat)
    (c : Retrieve.Caller) (evs : List Retrieve.REvent)
    (h : ∀ p ∈ env.peers, env.eligible p = false) :
    (Retrieve.startRetrieval env req budget c).rstate
      = Retrieve.RState.failedTerminal Retrieve.RError.noEligiblePeer ∧
    (Retrieve.run env evs (Retrieve.startRetrieval env req budget c)).rstate
      = Retrieve.RState.failedTerminal Retrieve.RError.noEligiblePeer ∧
    (∀ p : Retrieve.PeerId,
      (Retrieve.run env evs (Retrieve.startRetrieval env req budget c)).rstate
        ≠ Retrieve.RState.sent p ∧
      (Retrieve.run env evs (Retrieve.startRetrieval env req budget c)).rstate
        ≠ Retrieve.RState.waitingReply p) := by
  have hany : env.peers.any env.eligible = false := by
    rw [List.any_eq_false]
    intro p hp
    rw [h p hp]
    simp
  have hstart : Retrieve.startRetrieval env req budget c
      = ⟨req, [], budget, [c],
          Retrieve.RState.failedTerminal Retrieve.RError.noEligiblePeer⟩ := by
    simp [Retrieve.startRetrieval, hany]
  have habsorb : Retrieve.run env evs (Retrieve.startRetrieval env req budget c)
      = Retrieve.startRetrieval env req budget c := by
    refine run_terminal_absorb env evs _ Retrieve.RError.noEligiblePeer ?_
    rw [hstart]
  refine ⟨by rw [hstart], by rw [habsorb, hstart], ?_⟩
  intro p
  rw [habsorb, hstart]
  exact ⟨fun hc => Retrieve.RState.noConfusion hc, fun hc => Retrieve.RState.noConfusion hc⟩

/-- Witness for C7: one connected peer that fails the capability test. -/
theorem C7_no_eligible_peer_immediate_error_witness :
    (∀ p ∈ (⟨fun _ _ => none, fun _ => false, [1]⟩ : Retrieve.Env).peers,
      (⟨fun _ _ => none, fun _ => false, [1]⟩ : Retrieve.Env).eligible p = false) ∧
    (Retrieve.startRetrieval ⟨fun _ _ => none, fun _ => false, [1]⟩ ⟨0, [], 0⟩ 2 10).rstate
      = Retrieve.RState.failedTerminal Retrieve.RError.noEligiblePeer ∧
    (Retrieve.run ⟨fun _ _ => none, fun _ => false, [1]⟩ [Retrieve.REvent.dispatch 1]
        (Retrieve.startRetrieval ⟨fun _ _ => none, fun _ => false, [1]⟩
          ⟨0, [], 0⟩ 2 10)).rstate
      = Retrieve.RState.failedTerminal Retrieve.RError.noEligiblePeer :=
  ⟨fun _ _ => rfl,
   (C7_no_eligible_peer_immediate_error ⟨fun _ _ => none, fun _ => false, [1]⟩
      ⟨0, [], 0⟩ 2 10 [Retrieve.REvent.dispatch 1] (fun _ _ => rfl)).1,
   (C7_no_eligible_peer_immediate_error ⟨fun _ _ => none, fun _ => false, [1]⟩
      ⟨0, [], 0⟩ 2 10 [Retrieve.REvent.dispatch 1] (fun _ _ => rfl)).2.1⟩

section DedupLemmas

open Retrieve

/-- A fresh Retrieval starts with exactly its one asking caller waiting. -/
theorem startRetrieval_waiters (env : Env) (req : Request) (budget : Nat) (c : Caller) :
    (Retrieve.startRetrieval env req budget c).waiters = [c] := by
  simp only [Retrieve.startRetrieval]
  split <;> rfl

/-- An ask whose key already has the unique live Retrieval attaches the
caller to its waiter set and creates nothing. -/
theorem ask_attach (env : Env) (budget : Nat) (st : Dedup) (req : Request)
    (c : Caller) (r : Retrieval) (h : st.live = [(req, r)]) :
    (Retrieve.ask env budget st req c).live
      = [(req, { r with waiters := c :: r.waiters })] ∧
    (Retrieve.ask env budget st req c).created = st.created := by
  constructor <;> simp [Retrieve.ask, h]

/-- Folding further asks for the same key over a table holding its unique
live Retrieval only accumulates waiters; no Retrieval is created. -/
theorem foldl_ask_attach (env : Env) (budget : Nat) (req : Request) :
    ∀ (cs : List Caller) (st : Dedup) (r : Retrieval),
      st.live = [(req, r)] →
      (cs.foldl (fun s c => Retrieve.ask env budget s req c) st).live
        = [(req, { r with waiters := cs.reverse ++ r.waiters })] ∧
      (cs.foldl (fun s c => Retrieve.ask env budget s req c) st).created = st.created := by
  intro cs
  induction cs with
  | nil =>
      intro st r h
      exact ⟨by simpa using h, rfl⟩
  | cons c cs ih =>
      intro st r h
      have ha := ask_attach env budget st req c r h
      have hrec := ih (Retrieve.ask env budget st req c)
        { r with waiters := c :: r.waiters } ha.1
      refine ⟨?_, ?_⟩
      · rw [List.foldl_cons, hrec.1]
        simp [List.append_assoc]
      · rw [List.foldl_cons, hrec.2, ha.2]

end DedupLemmas

/-- C2: any non-empty batch of asks with the same type, payload and root
creates exactly one underlying Retrieval, attaches every caller to it, and
whatever terminal outcome that Retrieval reaches is delivered identically
to every attached caller. -/
theorem C2_identical_asks_deduplicated
    (env : Retrieve.Env) (budget : Nat) (req : Retrieve.Request)
    (cs : List Retrieve.Caller) (hne : cs ≠ []) :
    (cs.foldl (fun s c => Retrieve.ask env budget s req c) Retrieve.Dedup.init).created
      = 1 ∧
    (∃ r : Retrieve.Retrieval,
      (cs.foldl (fun s c => Retrieve.ask env budget s req c) Retrieve.Dedup.init).live
        = [(req, r)] ∧
      (∀ c, c ∈ r.waiters ↔ c ∈ cs)) ∧
    (∀ (r : Retrieve.Retrieval) (x y : Retrieve.Caller × Except Retrieve.RError (List Nat)),
      x ∈ Retrieve.deliver r → y ∈ Retrieve.deliver r → x.2 = y.2) := by
  obtain _ | ⟨c, cs'⟩ := cs
  · exact absurd rfl hne
  · have h1 : (Retrieve.ask env budget Retrieve.Dedup.init req c).live
        = [(req, Retrieve.startRetrieval env req budget c)] := by
      simp [Retrieve.ask, Retrieve.Dedup.init]
    have h2 : (Retrieve.ask env budget Retrieve.Dedup.init req c).created = 1 := by
      simp [Retrieve.ask, Retrieve.Dedup.init]
    have hfold := foldl_ask_attach env budget req cs'
      (Retrieve.ask env budget Retrieve.Dedup.init req c)
      (Retrieve.startRetrieval env req budget c) h1
    refine ⟨?_, ?_, ?_⟩
    · rw [List.foldl_cons, hfold.2, h2]
    · refine ⟨{ Retrieve.startRetrieval env req budget c with
          waiters := cs'.reverse
            ++ (Retrieve.startRetrieval env req budget c).waiters }, ?_, ?_⟩
      · rw [List.foldl_cons, hfold.1]
      · intro x
        simp [startRetrieval_waiters, List.mem_cons]
        tauto
    · intro r x y hx hy
      unfold Retrieve.deliver at hx hy
      cases ho : Retrieve.outcome r.rstate <;> rw [ho] at hx hy
      · simp at hx
      · simp [List.mem_map] at hx hy
        obtain ⟨a, _, hax⟩ := hx
        obtain ⟨b, _, hby⟩ := hy
        rw [← hax, ← hby]

/-- Witness for C2: two concurrent identical asks resolve to one Retrieval. -/
theorem C2_identical_asks_deduplicated_witness :
    (([4, 5] : List Retrieve.Caller) ≠ []) ∧
    (([4, 5] : List Retrieve.Caller).foldl
      (fun s c => Retrieve.ask ⟨fun _ _ => none, fun _ => true, [1]⟩ 1 s ⟨0, [], 0⟩ c)
      Retrieve.Dedup.init).created = 1 :=
  ⟨by decide,
   (C2_identical_asks_deduplicated ⟨fun _ _ => none, fun _ => true, [1]⟩ 1 ⟨0, [], 0⟩
      [4, 5] (by decide)).1⟩
